import Mathlib

/-
Verification of the streaming audio segmentation engine implemented in
src/voice_input_tool.py (class VoiceInputTool).

The embedding below translates the relevant parts of the source:

* detect_silence (lines 343-357): volume = np.abs(data).mean() over the
  int16 samples of a buffer, silent iff volume < threshold (default 200).
  np.abs on dtype int16 wraps at the minimum value: np.abs(-32768) = -32768;
  abs16 models this exactly.  The float64 mean is modelled as the exact
  rational mean; the int16-wrapped elementwise absolute value is kept exact.
* process_audio (lines 364-436): the tick loop.  Its loop-local state is
  silence_start (Option timestamp), accumulated_frames, is_listening.
  last_active_time is written (line 404) but never read, so it is omitted.
  The is_processing guard is set and cleared synchronously inside a single
  iteration (lines 426-430, process_chunk is a synchronous call), so the
  `if is_processing: continue` at line 387 never fires in the loop itself
  and is not part of the state.  UI calls (update_status, set_volume) are
  ignored.  Timestamps (time.time()) and durations are modelled as rationals.
  Python truthiness of `if silence_start and ...` (line 418) is modelled
  exactly: None and 0.0 are both falsy.
* the shared frame buffer self.frames appended to by audio_callback
  (lines 338-341) and the last_process_size cursor (lines 391-400, 434) are
  modelled in BufState/buffered_tick; the audio callback's appends are
  modelled as happening between ticks (sequential interleaving).
* process_chunk (lines 438-471): the recognition outcome of
  recognizer.recognize_google is modelled as a sum type; the function's
  effect is reduced to the list of texts enqueued to text_queue and the list
  of error messages printed.
* stop_recording (lines 473-492): closes the stream, clears is_recording,
  stops the animation and destroys the window.  It contains no call to
  process_chunk and process_audio has no code after its while loop, so no
  chunk is emitted on stop; stop_recording_flush records this as the (empty)
  list of chunks emitted by the stop path.

The three duration constants are literals local to process_audio
(lines 372-374); the spec describes them as overridable configuration, so
the embedding lifts them into a Config record whose defaultConfig is exactly
the source's literals.
-/

namespace VoiceInput

/-- A PCM frame as delivered to audio_callback: the list of its signed
16-bit samples (the source keeps frames as byte strings and reinterprets
them with np.frombuffer(..., dtype=np.int16)). -/
abbrev Frame := List ℤ

/-- np.abs on a dtype-int16 array, elementwise: ordinary absolute value
except that the minimum value wraps, np.abs(-32768) = -32768.  Samples
produced by np.frombuffer(..., np.int16) always lie in [-32768, 32767]. -/
def abs16 (x : ℤ) : ℤ := if x = -32768 then -32768 else |x|

/-- Line 352: volume = np.abs(data).mean(), as an exact rational
(sum of int16-wrapped absolute values divided by the sample count). -/
def volume (data : List ℤ) : ℚ :=
  ((data.map fun x => (abs16 x : ℚ)).sum) / (data.length : ℚ)

/-- The true mean absolute amplitude of a buffer (the quantity the spec
says detect_silence computes). -/
def meanAbs (data : List ℤ) : ℚ :=
  ((data.map fun x => ((|x| : ℤ) : ℚ)).sum) / (data.length : ℚ)

/-- detect_silence (lines 343-357): returns volume < threshold; the
threshold parameter defaults to 200 at the call site (line 398). -/
def detect_silence (threshold : ℚ) (data : List ℤ) : Bool :=
  decide (volume data < threshold)

/-- The duration constants local to process_audio (lines 372-374), lifted
to a record so that statements about overridden values can be made. -/
structure Config where
  min_silence_duration : ℚ
  min_chunk_duration : ℚ
  max_chunk_duration : ℚ
deriving DecidableEq

/-- The literal values in the source: 1.0, 1.0, 10 (lines 372-374). -/
def defaultConfig : Config := ⟨1, 1, 10⟩

/-- The loop-local segmentation state of process_audio. -/
structure PAState where
  silence_start : Option ℚ
  accumulated_frames : List Frame
  is_listening : Bool
deriving DecidableEq

/-- The state at the top of process_audio (lines 378-384). -/
def paInit : PAState := ⟨none, [], false⟩

/-- Line 401: chunk_duration = (len(accumulated_frames) * 1024) / 44100. -/
def chunk_durationQ (l : List Frame) : ℚ :=
  ((l.length : ℚ) * 1024) / 44100

/-- Lines 396-413: classify the tick's batch of new frames (joined into one
buffer) with detect_silence, append the batch to accumulated_frames and
update silence_start / is_listening. -/
def update_silence (s : PAState) (t : ℚ) (fs : List Frame) : PAState :=
  let acc := s.accumulated_frames ++ fs
  if detect_silence 200 fs.flatten then
    match s.silence_start with
    | none => ⟨some t, acc, false⟩
    | some v => ⟨some v, acc, s.is_listening⟩
  else
    ⟨none, acc, true⟩

/-- Lines 415-422: the should_process decision.  The Python

  if silence_start and (current_time - silence_start >= min_silence_duration):
      if chunk_duration >= min_chunk_duration: should_process = True
  elif chunk_duration >= max_chunk_duration:
      should_process = True

is the conditional below; `silence_start and ...` is Python truthiness, so a
silence_start of None or exactly 0.0 sends control to the elif branch. -/
def should_process (cfg : Config) (ss : Option ℚ) (t dur : ℚ) : Bool :=
  match ss with
  | some v =>
      if v ≠ 0 ∧ cfg.min_silence_duration ≤ t - v then
        decide (cfg.min_chunk_duration ≤ dur)
      else
        decide (cfg.max_chunk_duration ≤ dur)
  | none => decide (cfg.max_chunk_duration ≤ dur)

/-- The first branch of the decision alone: emission via the silence rule
(lines 418-420). -/
def silence_should (cfg : Config) (ss : Option ℚ) (t dur : ℚ) : Bool :=
  match ss with
  | some v =>
      decide (v ≠ 0 ∧ cfg.min_silence_duration ≤ t - v ∧
        cfg.min_chunk_duration ≤ dur)
  | none => false

/-- Lines 396-432: the body of the tick loop run on a non-empty batch of
new frames — classify and append the batch, evaluate should_process once on
the cumulative state, and on emission hand accumulated_frames to
process_chunk and reset accumulated_frames, silence_start and is_listening
(lines 424-432).  Returns the successor state and the emitted chunk. -/
def coreTick (cfg : Config) (s : PAState) (t : ℚ) (fs : List Frame) :
    PAState × Option (List Frame) :=
  let s1 := update_silence s t fs
  if should_process cfg s1.silence_start t
      (chunk_durationQ s1.accumulated_frames) then
    (⟨none, [], false⟩, some s1.accumulated_frames)
  else
    (s1, none)

/-- True when the silence branch (lines 418-420) itself fires at this tick:
the batch is non-empty (otherwise the whole body is skipped, line 394) and
the first branch of should_process holds on the updated state. -/
def silence_fired (cfg : Config) (s : PAState) (t : ℚ) (fs : List Frame) :
    Bool :=
  if fs.isEmpty then false
  else
    silence_should cfg (update_silence s t fs).silence_start t
      (chunk_durationQ (s.accumulated_frames ++ fs))

/-- One iteration of the tick loop in terms of the frames newly available
since the previous tick: if none are available (current_size =
last_process_size, line 394) the whole body is skipped, otherwise the body
runs on the batch. -/
def runStep (cfg : Config) (s : PAState) (x : ℚ × List Frame) :
    PAState × Option (List Frame) :=
  if x.2.isEmpty then (s, none) else coreTick cfg s x.1 x.2

/-- Run the tick loop over a list of ticks, each given as (timestamp,
frames newly available at that tick), collecting the per-tick emission. -/
def runTrace (cfg : Config) : PAState → List (ℚ × List Frame) →
    PAState × List (Option (List Frame))
  | s, [] => (s, [])
  | s, x :: xs =>
      let p := runStep cfg s x
      let r := runTrace cfg p.1 xs
      (r.1, p.2 :: r.2)

/-- The state shared between audio_callback and the tick loop: the
append-only frame buffer self.frames (line 159, 313, 340) together with the
loop's read cursor last_process_size (line 379) and the loop-local
segmentation state. -/
structure BufState where
  frames : List Frame
  last_process_size : ℕ
  core : PAState
deriving DecidableEq

/-- The buffer and loop state at recording start (lines 313, 378-384). -/
def bufInit : BufState := ⟨[], 0, paInit⟩

/-- One tick of process_audio at buffer level (lines 391-436).  The frames
appended by audio_callback since the previous tick are modelled as arriving
before the tick body runs.  Lines 391-400: read current_size, and if it
exceeds last_process_size, slice the unread suffix as new_frames and run the
body on it; line 434 advances the cursor to current_size.  Otherwise the
body is skipped and the cursor is unchanged. -/
def buffered_tick (cfg : Config) (s : BufState) (t : ℚ)
    (appended : List Frame) : BufState × Option (List Frame) :=
  let frames := s.frames ++ appended
  let current_size := frames.length
  if s.last_process_size < current_size then
    let new_frames := frames.drop s.last_process_size
    let p := coreTick cfg s.core t new_frames
    (⟨frames, current_size, p.1⟩, p.2)
  else
    (⟨frames, s.last_process_size, s.core⟩, none)

/-- Run the buffer-level tick loop over a list of ticks given as
(timestamp, frames appended by audio_callback since the previous tick),
collecting the per-tick emission. -/
def buffered_run (cfg : Config) : BufState → List (ℚ × List Frame) →
    BufState × List (Option (List Frame))
  | s, [] => (s, [])
  | s, x :: xs =>
      let p := buffered_tick cfg s x.1 x.2
      let r := buffered_run cfg p.1 xs
      (r.1, p.2 :: r.2)

/-- The chunks handed to process_chunk by stop_recording (lines 473-492):
stop_recording stops and closes the stream, clears is_recording, stops the
button animation and destroys the window; it contains no call to
process_chunk, and process_audio has no code after its while loop, so the
stop path emits no chunk at all. -/
def stop_recording_flush : List (List Frame) := []

/-- A whole recording session: the chunks emitted by the tick loop while
is_recording holds, followed by whatever the stop path emits. -/
def session_chunks (cfg : Config) (l : List (ℚ × List Frame)) :
    List (List Frame) :=
  (buffered_run cfg bufInit l).2.filterMap id ++ stop_recording_flush

/-- The outcome of recognizer.recognize_google on a chunk (lines 461-468):
recognized text, sr.UnknownValueError (no speech), or any other
exception. -/
inductive RecogResult where
  | text (s : String)
  | unknownValue
  | error (msg : String)
deriving DecidableEq

/-- process_chunk (lines 438-471), reduced to the texts put on text_queue.
Line 446-447: an empty chunk returns immediately.  Lines 461-464: the
recognized text is stripped and enqueued only if non-blank.  Lines 465-466:
sr.UnknownValueError is passed over silently.  Lines 467-468: any other
exception enqueues nothing.  Only one recognition attempt is made. -/
def process_chunk_queued (frames : List Frame) (r : RecogResult) :
    List String :=
  if frames = [] then []
  else
    match r with
    | .text s => if s.trim = "" then [] else [s.trim]
    | .unknownValue => []
    | .error _ => []

/-- process_chunk (lines 438-471), reduced to the error messages printed:
only the generic except branch (lines 467-468) prints one. -/
def process_chunk_logged (frames : List Frame) (r : RecogResult) :
    List String :=
  if frames = [] then []
  else
    match r with
    | .text _ => []
    | .unknownValue => []
    | .error m => [m]

/-! Evaluation helpers for concrete frames.  The concrete frames used in
witnesses and counterexamples are the one-sample loud frame [300] and the
one-sample silent frame [0]; the loop only ever looks at a chunk's length
(line 401) and at the volume of a tick's batch (line 398), so one-sample
frames exercise every code path. -/

lemma abs16_of_nonneg {x : ℤ} (h : 0 ≤ x) : abs16 x = x := by
  have hx : x ≠ -32768 := by omega
  simp [abs16, hx, abs_of_nonneg h]

lemma volume_replicate (n : ℕ) (c : ℤ) (hn : n ≠ 0) (hc : 0 ≤ c) :
    volume (List.replicate n c) = c := by
  simp [volume, abs16_of_nonneg hc, List.map_replicate, List.sum_replicate,
    mul_comm]
  rw [mul_div_assoc, div_self (by exact_mod_cast hn), mul_one]

lemma flatten_replicate_singleton (n : ℕ) (c : ℤ) :
    (List.replicate n ([c] : Frame)).flatten = List.replicate n c := by
  induction n with
  | zero => rfl
  | succ k ih => simp [List.replicate_succ, ih]

lemma detect_silence_loud (n : ℕ) (hn : n ≠ 0) :
    detect_silence 200 (List.replicate n 300) = false := by
  simp [detect_silence, volume_replicate n 300 hn (by norm_num)]
  norm_num

lemma detect_silence_silent (n : ℕ) (hn : n ≠ 0) :
    detect_silence 200 (List.replicate n 0) = true := by
  simp [detect_silence, volume_replicate n 0 hn (by norm_num)]

/-! Structural lemmas about the tick body. -/

lemma update_silence_acc (s : PAState) (t : ℚ) (fs : List Frame) :
    (update_silence s t fs).accumulated_frames =
      s.accumulated_frames ++ fs := by
  unfold update_silence
  split
  · split <;> rfl
  · rfl

lemma update_silence_silent_none (s : PAState) (t : ℚ) (fs : List Frame)
    (h : detect_silence 200 fs.flatten = true) (h2 : s.silence_start = none) :
    update_silence s t fs = ⟨some t, s.accumulated_frames ++ fs, false⟩ := by
  simp [update_silence, h, h2]

lemma update_silence_silent_some (s : PAState) (t : ℚ) (fs : List Frame)
    (v : ℚ) (h : detect_silence 200 fs.flatten = true)
    (h2 : s.silence_start = some v) :
    update_silence s t fs =
      ⟨some v, s.accumulated_frames ++ fs, s.is_listening⟩ := by
  simp [update_silence, h, h2]

lemma update_silence_loud (s : PAState) (t : ℚ) (fs : List Frame)
    (h : detect_silence 200 fs.flatten = false) :
    update_silence s t fs = ⟨none, s.accumulated_frames ++ fs, true⟩ := by
  simp [update_silence, h]

lemma coreTick_eq_emit (cfg : Config) (s : PAState) (t : ℚ) (fs : List Frame)
    (h : should_process cfg (update_silence s t fs).silence_start t
      (chunk_durationQ (s.accumulated_frames ++ fs)) = true) :
    coreTick cfg s t fs =
      (⟨none, [], false⟩, some (s.accumulated_frames ++ fs)) := by
  simp [coreTick, update_silence_acc, h]

lemma coreTick_eq_skip (cfg : Config) (s : PAState) (t : ℚ) (fs : List Frame)
    (h : should_process cfg (update_silence s t fs).silence_start t
      (chunk_durationQ (s.accumulated_frames ++ fs)) = false) :
    coreTick cfg s t fs = (update_silence s t fs, none) := by
  simp [coreTick, update_silence_acc, h]

lemma coreTick_cases (cfg : Config) (s : PAState) (t : ℚ) (fs : List Frame) :
    coreTick cfg s t fs =
        (⟨none, [], false⟩, some (s.accumulated_frames ++ fs)) ∨
      coreTick cfg s t fs = (update_silence s t fs, none) := by
  cases h : should_process cfg (update_silence s t fs).silence_start t
      (chunk_durationQ (s.accumulated_frames ++ fs))
  · exact Or.inr (coreTick_eq_skip cfg s t fs h)
  · exact Or.inl (coreTick_eq_emit cfg s t fs h)

lemma runTrace_append (cfg : Config) (s : PAState)
    (l₁ l₂ : List (ℚ × List Frame)) :
    runTrace cfg s (l₁ ++ l₂) =
      ((runTrace cfg (runTrace cfg s l₁).1 l₂).1,
        (runTrace cfg s l₁).2 ++ (runTrace cfg (runTrace cfg s l₁).1 l₂).2) := by
  induction l₁ generalizing s with
  | nil => simp [runTrace]
  | cons x xs ih => simp [runTrace, ih]

lemma chunk_durationQ_nonneg (l : List Frame) : 0 ≤ chunk_durationQ l := by
  unfold chunk_durationQ
  positivity

lemma chunk_durationQ_mono (l₁ l₂ : List Frame)
    (h : l₁.length ≤ l₂.length) :
    chunk_durationQ l₁ ≤ chunk_durationQ l₂ := by
  unfold chunk_durationQ
  have hq : (l₁.length : ℚ) ≤ (l₂.length : ℚ) := by exact_mod_cast h
  gcongr

lemma should_process_min (cfg : Config) (ss : Option ℚ) (t dur : ℚ)
    (hmm : cfg.min_chunk_duration ≤ cfg.max_chunk_duration)
    (h : should_process cfg ss t dur = true) :
    cfg.min_chunk_duration ≤ dur := by
  cases ss with
  | none =>
      simp only [should_process, decide_eq_true_eq] at h
      linarith
  | some v =>
      simp only [should_process] at h
      by_cases hc : v ≠ 0 ∧ cfg.min_silence_duration ≤ t - v
      · rw [if_pos hc] at h
        simpa using h
      · rw [if_neg hc] at h
        simp only [decide_eq_true_eq] at h
        linarith

-- Sanity checks on concrete data.
example : detect_silence 200 [300] = false :=
  detect_silence_loud 1 (by norm_num)
example : detect_silence 200 [0] = true :=
  detect_silence_silent 1 (by norm_num)

/-! Concrete tick evaluations reused by witnesses and counterexamples. -/

lemma detect_silent_one : detect_silence 200 ([[(0 : ℤ)]].flatten) = true := by
  simpa using detect_silence_silent 1 (by norm_num)

lemma detect_loud_one : detect_silence 200 ([[(300 : ℤ)]].flatten) = false := by
  simpa using detect_silence_loud 1 (by norm_num)

/-- A silence-rule emission on concrete data: 44 pending frames (≈ 1.02 s),
silence since time 1, a silent one-frame batch at time 5/2. -/
lemma coreTick_emit_eval :
    coreTick defaultConfig ⟨some 1, List.replicate 44 [300], false⟩
      ((5 : ℚ)/2) [[0]] =
      (⟨none, [], false⟩, some (List.replicate 44 [300] ++ [[0]])) := by
  apply coreTick_eq_emit
  rw [update_silence_silent_some _ _ _ 1 detect_silent_one rfl]
  simp only [should_process]
  rw [if_pos (by norm_num [defaultConfig])]
  simp only [chunk_durationQ, List.length_append, List.length_replicate,
    decide_eq_true_eq]
  norm_num [defaultConfig]

/-- A skipping tick on concrete data: from the initial state, one loud
one-frame batch at time 1 makes the engine listen without emitting. -/
lemma coreTick_skip_eval :
    coreTick defaultConfig paInit 1 [[300]] = (⟨none, [[300]], true⟩, none) := by
  have hsp : should_process defaultConfig
      (update_silence paInit 1 [[300]]).silence_start 1
      (chunk_durationQ (paInit.accumulated_frames ++ [[300]])) = false := by
    rw [update_silence_loud _ _ _ detect_loud_one]
    simp only [should_process, paInit, chunk_durationQ, List.nil_append,
      List.length_cons, List.length_nil, decide_eq_false_iff_not]
    norm_num [defaultConfig]
  rw [coreTick_eq_skip _ _ _ _ hsp, update_silence_loud _ _ _ detect_loud_one]
  simp [paInit]

/-- From the initial state, a batch of 44 loud frames at time 1 is
classified loud and accumulated without emission (duration ≈ 1.02 s < 10). -/
lemma coreTick_loud44 :
    coreTick defaultConfig paInit 1 (List.replicate 44 [300]) =
      (⟨none, List.replicate 44 [300], true⟩, none) := by
  have hdet : detect_silence 200
      ((List.replicate 44 ([300] : Frame)).flatten) = false := by
    rw [flatten_replicate_singleton]
    exact detect_silence_loud 44 (by norm_num)
  have hsp : should_process defaultConfig
      (update_silence paInit 1 (List.replicate 44 [300])).silence_start 1
      (chunk_durationQ (paInit.accumulated_frames ++
        List.replicate 44 [300])) = false := by
    rw [update_silence_loud _ _ _ hdet]
    simp only [should_process, chunk_durationQ, paInit, List.nil_append,
      List.length_replicate, decide_eq_false_iff_not]
    norm_num [defaultConfig]
  rw [coreTick_eq_skip _ _ _ _ hsp, update_silence_loud _ _ _ hdet]
  simp [paInit]

/-- With 44 loud frames pending, a silent one-frame batch at time 3/2
starts a silence run without emitting (silence duration 0 < 1,
duration ≈ 1.04 s < 10). -/
lemma coreTick_silent_start :
    coreTick defaultConfig ⟨none, List.replicate 44 [300], true⟩
      ((3 : ℚ)/2) [[0]] =
      (⟨some ((3 : ℚ)/2), List.replicate 44 [300] ++ [[0]], false⟩, none) := by
  have hsp : should_process defaultConfig
      (update_silence ⟨none, List.replicate 44 [300], true⟩ ((3 : ℚ)/2)
        [[0]]).silence_start ((3 : ℚ)/2)
      (chunk_durationQ ((⟨none, List.replicate 44 [300], true⟩ :
        PAState).accumulated_frames ++ [[0]])) = false := by
    rw [update_silence_silent_none _ _ _ detect_silent_one rfl]
    simp only [should_process, chunk_durationQ, List.length_append,
      List.length_replicate, decide_eq_false_iff_not]
    rw [if_neg (by norm_num [defaultConfig])]
    norm_num [defaultConfig]
  rw [coreTick_eq_skip _ _ _ _ hsp,
    update_silence_silent_none _ _ _ detect_silent_one rfl]

/-- A tick with no newly appended frames is a no-op when the cursor has
caught up with the buffer (the `if` at line 394 fails). -/
lemma buffered_tick_nil (cfg : Config) (s : BufState) (t : ℚ)
    (h : s.last_process_size = s.frames.length) :
    buffered_tick cfg s t [] = (s, none) := by
  obtain ⟨fr, cur, co⟩ := s
  simp only at h
  subst h
  simp [buffered_tick]

/-- A tick with a non-empty batch of newly appended frames runs the body on
exactly that batch when the cursor has caught up with the buffer. -/
lemma buffered_tick_cons (cfg : Config) (s : BufState) (t : ℚ)
    (a : List Frame) (h : s.last_process_size = s.frames.length)
    (ha : a ≠ []) :
    buffered_tick cfg s t a =
      (⟨s.frames ++ a, (s.frames ++ a).length,
        (coreTick cfg s.core t a).1⟩, (coreTick cfg s.core t a).2) := by
  have hlt : s.last_process_size < (s.frames ++ a).length := by
    rw [h, List.length_append]
    have : 0 < a.length := List.length_pos.mpr ha
    omega
  simp only [buffered_tick]
  rw [if_pos hlt, List.drop_left' h.symm]

lemma buffered_run_nil (cfg : Config) (s : BufState) :
    buffered_run cfg s [] = (s, []) := rfl

lemma buffered_run_cons (cfg : Config) (s : BufState)
    (x : ℚ × List Frame) (xs : List (ℚ × List Frame)) :
    buffered_run cfg s (x :: xs) =
      ((buffered_run cfg (buffered_tick cfg s x.1 x.2).1 xs).1,
        (buffered_tick cfg s x.1 x.2).2 ::
          (buffered_run cfg (buffered_tick cfg s x.1 x.2).1 xs).2) := rfl

/-! ## C9: the volume meter -/

/-- C9 counterexample: the loudness is not always the mean of the absolute
values of the samples and is not always non-negative.  np.abs on the int16
buffer wraps at -32768 (np.abs(np.int16(-32768)) = -32768), so the
one-sample frame [-32768] has loudness -32768: negative, and different from
its mean absolute value 32768.  Such a frame is classified silent. -/
theorem volume_int16_min_cex :
    volume [-32768] = -32768 ∧ volume [-32768] < 0 ∧
      meanAbs [-32768] = 32768 ∧ detect_silence 200 [-32768] = true := by
  refine ⟨?_, ?_, ?_, ?_⟩ <;>
    norm_num [volume, meanAbs, abs16, detect_silence]

/-- C9 (amended): for every sample buffer whose samples avoid the int16
minimum -32768 (where np.abs wraps), the loudness computed by detect_silence
equals the mean of the absolute values of the samples and is non-negative;
loudness is a pure function of the buffer (volume is a function, so
re-computing it on the same buffer trivially yields the same value); and a
buffer is classified silent if and only if its loudness is strictly below
the threshold (200 at the call site). -/
theorem volume_mean_abs :
    (∀ data : List ℤ, (∀ x ∈ data, x ≠ -32768) →
        volume data = meanAbs data ∧ 0 ≤ volume data) ∧
    (∀ (th : ℚ) (data : List ℤ),
        detect_silence th data = true ↔ volume data < th) := by
  constructor
  · intro data h
    have hmap : data.map (fun x => (abs16 x : ℚ)) =
        data.map fun x => ((|x| : ℤ) : ℚ) := by
      apply List.map_congr_left
      intro x hx
      simp only [abs16, if_neg (h x hx)]
    constructor
    · rw [volume, meanAbs, hmap]
    · rw [volume, hmap]
      apply div_nonneg _ (by positivity)
      apply List.sum_nonneg
      intro q hq
      simp only [List.mem_map] at hq
      obtain ⟨x, _, rfl⟩ := hq
      exact_mod_cast abs_nonneg x
  · intro th data
    simp [detect_silence]

/-- C9 witness: the amended theorem applied to the concrete buffer
[100, -50]: its loudness is the mean absolute value 75 and non-negative. -/
theorem volume_mean_abs_witness :
    volume [100, -50] = meanAbs [100, -50] ∧ 0 ≤ volume [100, -50] :=
  volume_mean_abs.1 [100, -50] (by norm_num)

/-! ## C8: per-chunk error handling of the transcription step -/

/-- C8 (confirmed): for a non-empty chunk handed to process_chunk, an
sr.UnknownValueError (no speech) enqueues nothing and prints no error; any
other recognition error prints exactly one message, enqueues nothing and is
not retried (process_chunk makes a single recognition attempt and returns,
so the tick loop continues); a non-blank recognized text is enqueued exactly
once (stripped). -/
theorem process_chunk_error_handling :
    ∀ frames : List Frame, frames ≠ [] →
      (process_chunk_queued frames .unknownValue = [] ∧
        process_chunk_logged frames .unknownValue = []) ∧
      (∀ m, process_chunk_queued frames (.error m) = [] ∧
        process_chunk_logged frames (.error m) = [m]) ∧
      (∀ s, s.trim ≠ "" →
        process_chunk_queued frames (.text s) = [s.trim]) := by
  intro frames h
  refine ⟨⟨?_, ?_⟩, fun m => ⟨?_, ?_⟩, fun s hs => ?_⟩
  · simp [process_chunk_queued, h]
  · simp [process_chunk_logged, h]
  · simp [process_chunk_queued, h]
  · simp [process_chunk_logged, h]
  · simp [process_chunk_queued, h, hs]

/-- C8 witness: the theorem applied to the one-frame chunk [[0]] and a
backend failure with message "boom": nothing is enqueued and exactly that
message is logged. -/
theorem process_chunk_error_handling_witness :
    process_chunk_queued [[0]] (.error "boom") = [] ∧
      process_chunk_logged [[0]] (.error "boom") = ["boom"] :=
  (process_chunk_error_handling [[0]] (by simp)).2.1 "boom"

/-! ## C6: silence-triggered chunks are never shorter than
min_chunk_duration -/

/-- C6 (confirmed): with the source's constants, the silence branch
(lines 418-420) only fires when the pending chunk's duration
len * 1024 / 44100 is at least min_chunk_duration = 1.0; moreover every
chunk emitted by the tick body has duration ≥ 1.0, since the only other
path is the force-cut, which requires duration ≥ max_chunk_duration
= 10 ≥ 1. -/
theorem silence_path_min_duration :
    (∀ (ss : Option ℚ) (t dur : ℚ),
        silence_should defaultConfig ss t dur = true → 1 ≤ dur) ∧
    (∀ (s : PAState) (t : ℚ) (fs : List Frame) (c : List Frame),
        (coreTick defaultConfig s t fs).2 = some c →
          1 ≤ chunk_durationQ c) := by
  constructor
  · intro ss t dur h
    cases ss with
    | none => simp [silence_should] at h
    | some v =>
        simp only [silence_should, defaultConfig, decide_eq_true_eq] at h
        exact h.2.2
  · intro s t fs c h
    cases h1 : should_process defaultConfig
        (update_silence s t fs).silence_start t
        (chunk_durationQ (s.accumulated_frames ++ fs)) with
    | false =>
        rw [coreTick_eq_skip defaultConfig s t fs h1] at h
        simp at h
    | true =>
        rw [coreTick_eq_emit defaultConfig s t fs h1] at h
        simp only [Option.some.injEq] at h
        have hmin := should_process_min defaultConfig
          (update_silence s t fs).silence_start t
          (chunk_durationQ (s.accumulated_frames ++ fs))
          (by norm_num [defaultConfig]) h1
        rw [← h]
        simpa [defaultConfig] using hmin

/-- C6 witness: the theorem applied to a concrete silence-rule emission
(44 pending frames plus a silent frame, silence since time 1, tick at time
5/2): the emitted chunk's duration is at least 1.0 s. -/
theorem silence_path_min_duration_witness :
    1 ≤ chunk_durationQ (List.replicate 44 [300] ++ [[0]]) :=
  silence_path_min_duration.2 ⟨some 1, List.replicate 44 [300], false⟩
    ((5 : ℚ)/2) [[0]] (List.replicate 44 [300] ++ [[0]])
    (by rw [coreTick_emit_eval])

/-! ## C4: the silence-marker invariant -/

/-- C4 counterexample: the invariant "silence_start is set iff the most
recently classified batch was silent" fails right after an emission.  With
44 pending frames, silence since time 1 and a silent batch at time 5/2, the
tick emits a chunk and clears silence_start (line 429) although the batch
it just classified was silent: after this processed tick the marker is
unset while the tracker's last batch was silent. -/
theorem silence_marker_cex :
    (coreTick defaultConfig ⟨some 1, List.replicate 44 [300], false⟩
        ((5 : ℚ)/2) [[0]]).1.silence_start = none ∧
      detect_silence 200 ([[(0 : ℤ)]].flatten) = true ∧
      (coreTick defaultConfig ⟨some 1, List.replicate 44 [300], false⟩
        ((5 : ℚ)/2) [[0]]).2 ≠ none := by
  rw [coreTick_emit_eval]
  exact ⟨rfl, detect_silent_one, by simp⟩

/-- C4 (amended): after every processed tick at which no chunk is emitted,
the silence-run marker silence_start is set if and only if the tick's batch
was classified silent; at a tick that does emit a chunk the marker is
always cleared (lines 428-429), even when the batch was silent — the
emission reset is the only deviation from the claimed invariant. -/
theorem silence_marker_iff :
    (∀ (s : PAState) (t : ℚ) (fs : List Frame),
        (coreTick defaultConfig s t fs).2 = none →
          ((coreTick defaultConfig s t fs).1.silence_start ≠ none ↔
            detect_silence 200 fs.flatten = true)) ∧
    (∀ (s : PAState) (t : ℚ) (fs : List Frame) (c : List Frame),
        (coreTick defaultConfig s t fs).2 = some c →
          (coreTick defaultConfig s t fs).1.silence_start = none) := by
  constructor
  · intro s t fs h
    cases h1 : should_process defaultConfig
        (update_silence s t fs).silence_start t
        (chunk_durationQ (s.accumulated_frames ++ fs)) with
    | true =>
        rw [coreTick_eq_emit _ _ _ _ h1] at h
        simp at h
    | false =>
        rw [coreTick_eq_skip _ _ _ _ h1]
        cases hdet : detect_silence 200 fs.flatten with
        | true =>
            cases hss : s.silence_start with
            | none =>
                rw [update_silence_silent_none s t fs hdet hss]
                simp
            | some v =>
                rw [update_silence_silent_some s t fs v hdet hss]
                simp
        | false =>
            rw [update_silence_loud s t fs hdet]
            simp
  · intro s t fs c h
    cases h1 : should_process defaultConfig
        (update_silence s t fs).silence_start t
        (chunk_durationQ (s.accumulated_frames ++ fs)) with
    | false =>
        rw [coreTick_eq_skip _ _ _ _ h1] at h
        simp at h
    | true =>
        rw [coreTick_eq_emit _ _ _ _ h1]

/-- C4 witness: the amended theorem applied to a concrete non-emitting
tick: a loud one-frame batch from the initial state leaves the marker
unset, matching the batch's classification. -/
theorem silence_marker_iff_witness :
    (coreTick defaultConfig paInit 1 [[300]]).1.silence_start ≠ none ↔
      detect_silence 200 ([[(300 : ℤ)]].flatten) = true :=
  silence_marker_iff.1 paInit 1 [[300]] (by rw [coreTick_skip_eval])

/-! ## C5: the emission check runs once per tick — but only on ticks that
deliver new frames -/

/-- Tick 1 of the C5 counterexample run at buffer level. -/
lemma buffered_tick1 :
    buffered_tick defaultConfig bufInit 1 (List.replicate 44 [300]) =
      (⟨List.replicate 44 [300], 44, ⟨none, List.replicate 44 [300], true⟩⟩,
        none) := by
  simp only [buffered_tick, bufInit, List.nil_append, List.length_replicate,
    List.drop_zero]
  rw [if_pos (by norm_num), coreTick_loud44]

/-- Tick 2 of the C5 counterexample run at buffer level. -/
lemma buffered_tick2 :
    buffered_tick defaultConfig
      ⟨List.replicate 44 [300], 44, ⟨none, List.replicate 44 [300], true⟩⟩
      ((3 : ℚ)/2) [[0]] =
      (⟨List.replicate 44 [300] ++ [[0]], 45,
        ⟨some ((3 : ℚ)/2), List.replicate 44 [300] ++ [[0]], false⟩⟩,
        none) := by
  simp only [buffered_tick, List.length_append, List.length_replicate,
    List.length_cons, List.length_nil]
  rw [if_pos (by norm_num),
    List.drop_left' (by simp : (List.replicate 44 ([300] : Frame)).length = 44),
    coreTick_silent_start]

/-- Tick 3 of the C5 counterexample run: no new frames, body skipped. -/
lemma buffered_tick3 :
    buffered_tick defaultConfig
      ⟨List.replicate 44 [300] ++ [[0]], 45,
        ⟨some ((3 : ℚ)/2), List.replicate 44 [300] ++ [[0]], false⟩⟩
      ((13 : ℚ)/5) [] =
      (⟨List.replicate 44 [300] ++ [[0]], 45,
        ⟨some ((3 : ℚ)/2), List.replicate 44 [300] ++ [[0]], false⟩⟩,
        none) := by
  simp [buffered_tick]

/-- C5 counterexample: a reachable run on which the claim fails.  44 loud
frames arrive at time 1, one silent frame at time 3/2 (starting a silence
run with the pending chunk already ≥ 1.0 s), and at time 13/5 a tick runs
with no new frames.  The emission condition computed on the cumulative
state at that third tick is true (silence run of 11/10 s ≥ 1.0 and pending
duration ≥ 1.0), yet the tick emits nothing, because lines 394-434 skip the
whole body — including the emission check — when current_size does not
exceed last_process_size. -/
theorem check_skipped_no_new_frames_cex :
    (buffered_run defaultConfig bufInit
        [(1, List.replicate 44 [300]), ((3 : ℚ)/2, [[0]]),
          ((13 : ℚ)/5, [])]).2 = [none, none, none] ∧
      (buffered_run defaultConfig bufInit
        [(1, List.replicate 44 [300]), ((3 : ℚ)/2, [[0]]),
          ((13 : ℚ)/5, [])]).1.core =
        ⟨some ((3 : ℚ)/2), List.replicate 44 [300] ++ [[0]], false⟩ ∧
      should_process defaultConfig (some ((3 : ℚ)/2)) ((13 : ℚ)/5)
        (chunk_durationQ (List.replicate 44 [300] ++ [[0]])) = true := by
  rw [buffered_run_cons, buffered_run_cons, buffered_run_cons]
  rw [buffered_tick1]
  rw [show (buffered_tick defaultConfig
      (⟨List.replicate 44 [300], 44, ⟨none, List.replicate 44 [300], true⟩⟩ :
        BufState) ((3 : ℚ)/2) [[0]]) =
      (⟨List.replicate 44 [300] ++ [[0]], 45,
        ⟨some ((3 : ℚ)/2), List.replicate 44 [300] ++ [[0]], false⟩⟩, none)
    from buffered_tick2]
  rw [buffered_tick3, buffered_run_nil]
  refine ⟨rfl, rfl, ?_⟩
  simp only [should_process]
  rw [if_pos (by norm_num [defaultConfig])]
  simp only [chunk_durationQ, List.length_append, List.length_replicate,
    decide_eq_true_eq]
  norm_num [defaultConfig]

/-- C5 (amended): on every tick at which at least one new frame is
available, all of the tick's new frames are appended and the emission
decision is computed exactly once, on the cumulative state after the
append; on a tick with no new frames the body — including the emission
check — is skipped and the state is unchanged.  (The processing guard
is irrelevant here: process_chunk is called synchronously, so is_processing
is always false at the top of an iteration.) -/
theorem emission_check_once_per_tick :
    (∀ (cfg : Config) (s : BufState) (t : ℚ),
        s.last_process_size = s.frames.length →
          buffered_tick cfg s t [] = (s, none)) ∧
    (∀ (cfg : Config) (s : BufState) (t : ℚ) (a : List Frame),
        s.last_process_size = s.frames.length → a ≠ [] →
          buffered_tick cfg s t a =
            (⟨s.frames ++ a, (s.frames ++ a).length,
              (coreTick cfg s.core t a).1⟩, (coreTick cfg s.core t a).2) ∧
          (coreTick cfg s.core t a).2 =
            (if should_process cfg
                (update_silence s.core t a).silence_start t
                (chunk_durationQ (s.core.accumulated_frames ++ a)) = true then
              some (s.core.accumulated_frames ++ a)
            else none)) := by
  constructor
  · intro cfg s t h
    exact buffered_tick_nil cfg s t h
  · intro cfg s t a h ha
    refine ⟨buffered_tick_cons cfg s t a h ha, ?_⟩
    cases h1 : should_process cfg (update_silence s.core t a).silence_start
        t (chunk_durationQ (s.core.accumulated_frames ++ a)) with
    | true => rw [coreTick_eq_emit _ _ _ _ h1, if_pos rfl]
    | false =>
        rw [coreTick_eq_skip _ _ _ _ h1, if_neg (by simp [h1])]

/-- C5 witness: the amended theorem applied to a concrete no-new-frame
tick from the initial buffer state: the tick is a no-op. -/
theorem emission_check_once_per_tick_witness :
    buffered_tick defaultConfig bufInit 1 [] = (bufInit, none) :=
  emission_check_once_per_tick.1 defaultConfig bufInit 1 rfl

/-! ## C3: the force-cut rule -/

/-- should_process always fires when the duration has reached
max_chunk_duration, provided min_chunk_duration ≤ max_chunk_duration (as
with the source's constants): the silence branch, when taken, asks only for
min_chunk_duration ≤ dur. -/
lemma should_process_of_max (cfg : Config) (ss : Option ℚ) (t dur : ℚ)
    (hmm : cfg.min_chunk_duration ≤ cfg.max_chunk_duration)
    (hdur : cfg.max_chunk_duration ≤ dur) :
    should_process cfg ss t dur = true := by
  cases ss with
  | none => simpa [should_process] using hdur
  | some v =>
      simp only [should_process]
      split
      · simp only [decide_eq_true_eq]
        linarith
      · simpa using hdur

/-- On a loud batch the silence branch can never fire (silence_start is
cleared before the decision, lines 408-409), so the tick emits exactly when
the cumulative duration has reached max_chunk_duration. -/
lemma coreTick_loud_batch (cfg : Config) (s : PAState) (t : ℚ)
    (fs : List Frame) (hdet : detect_silence 200 fs.flatten = false) :
    coreTick cfg s t fs =
      if cfg.max_chunk_duration ≤
          chunk_durationQ (s.accumulated_frames ++ fs) then
        (⟨none, [], false⟩, some (s.accumulated_frames ++ fs))
      else
        (⟨none, s.accumulated_frames ++ fs, true⟩, none) := by
  have hup := update_silence_loud s t fs hdet
  by_cases hd : cfg.max_chunk_duration ≤
      chunk_durationQ (s.accumulated_frames ++ fs)
  · rw [if_pos hd]
    apply coreTick_eq_emit
    rw [hup]
    simp [should_process, hd]
  · rw [if_neg hd]
    rw [coreTick_eq_skip _ _ _ _ (by rw [hup]; simp [should_process, hd]),
      hup]

lemma runTrace_nil (cfg : Config) (s : PAState) :
    runTrace cfg s [] = (s, []) := rfl

lemma runTrace_cons (cfg : Config) (s : PAState) (x : ℚ × List Frame)
    (xs : List (ℚ × List Frame)) :
    runTrace cfg s (x :: xs) =
      ((runTrace cfg (runStep cfg s x).1 xs).1,
        (runStep cfg s x).2 :: (runTrace cfg (runStep cfg s x).1 xs).2) := rfl

lemma runStep_of_ne (cfg : Config) (s : PAState) (x : ℚ × List Frame)
    (h : x.2 ≠ []) : runStep cfg s x = coreTick cfg s x.1 x.2 := by
  simp [runStep, h]

/-- C3 counterexample: with the overridden configuration
min_silence_duration = 1, min_chunk_duration = 20, max_chunk_duration = 10,
a tick at which the pending duration reaches max_chunk_duration emits
nothing.  430 frames are pending (≈ 9.98 s < 10) with silence since time 1;
a two-frame silent batch at time 5 takes the total to ≈ 10.03 s ≥ 10, but
because the silence condition holds (silence of 4 s ≥ 1) the elif of
line 421 is never evaluated, and the silence branch itself fails
(10.03 < 20): no chunk is emitted despite the duration having reached
max_chunk_duration. -/
theorem forcecut_blocked_cex :
    (coreTick ⟨1, 20, 10⟩ ⟨some 1, List.replicate 430 [300], false⟩ 5
        [[0], [0]]).2 = none ∧
      (10 : ℚ) ≤ chunk_durationQ (List.replicate 430 [300] ++ [[0], [0]]) ∧
      chunk_durationQ (List.replicate 430 [300]) < 10 := by
  have hdet : detect_silence 200 ([[(0 : ℤ)], [0]].flatten) = true := by
    simpa using detect_silence_silent 2 (by norm_num)
  have hsp : should_process ⟨1, 20, 10⟩
      (update_silence ⟨some 1, List.replicate 430 [300], false⟩ 5
        [[0], [0]]).silence_start 5
      (chunk_durationQ ((⟨some 1, List.replicate 430 [300], false⟩ :
        PAState).accumulated_frames ++ [[0], [0]])) = false := by
    rw [update_silence_silent_some _ _ _ 1 hdet rfl]
    simp only [should_process]
    rw [if_pos (by norm_num)]
    simp only [chunk_durationQ, List.length_append, List.length_replicate,
      List.length_cons, List.length_nil, decide_eq_false_iff_not]
    norm_num
  refine ⟨by rw [coreTick_eq_skip _ _ _ _ hsp], ?_, ?_⟩
  · simp only [chunk_durationQ, List.length_append, List.length_replicate,
      List.length_cons, List.length_nil]
    norm_num
  · simp only [chunk_durationQ, List.length_replicate]
    norm_num

/-- C3 (amended): provided min_chunk_duration ≤ max_chunk_duration — which
holds for the source's constants 1.0 and 10 — every tick at which the
pending chunk's duration reaches max_chunk_duration emits a chunk at that
tick regardless of the silence state; and on every run of continuously
loud batches (any configuration with 0 < max_chunk_duration), every
emitted chunk has duration ≥ max_chunk_duration while the pending chunk
stays below max_chunk_duration after every tick, so together with frame
conservation exactly one chunk is emitted per max_chunk_duration interval
and the remaining frames stay pending. -/
theorem forcecut_emits :
    (∀ (cfg : Config) (s : PAState) (t : ℚ) (fs : List Frame),
        cfg.min_chunk_duration ≤ cfg.max_chunk_duration →
        cfg.max_chunk_duration ≤
            chunk_durationQ (s.accumulated_frames ++ fs) →
          (coreTick cfg s t fs).2 = some (s.accumulated_frames ++ fs)) ∧
    (∀ (cfg : Config) (l : List (ℚ × List Frame)) (s : PAState),
        0 < cfg.max_chunk_duration →
        (∀ x ∈ l, x.2 ≠ [] ∧ detect_silence 200 x.2.flatten = false) →
          (∀ c ∈ (runTrace cfg s l).2, ∀ ch, c = some ch →
            cfg.max_chunk_duration ≤ chunk_durationQ ch) ∧
          (l ≠ [] →
            chunk_durationQ (runTrace cfg s l).1.accumulated_frames <
              cfg.max_chunk_duration)) := by
  constructor
  · intro cfg s t fs hmm hdur
    rw [coreTick_eq_emit _ _ _ _
      (should_process_of_max cfg _ t _ hmm hdur)]
  · intro cfg l
    induction l with
    | nil =>
        intro s _ _
        exact ⟨by simp [runTrace_nil], by simp⟩
    | cons x xs ih =>
        intro s hmax hl
        obtain ⟨hne, hloud⟩ := hl x (by simp)
        have hxs : ∀ y ∈ xs, y.2 ≠ [] ∧ detect_silence 200 y.2.flatten
            = false := fun y hy => hl y (by simp [hy])
        rw [runTrace_cons, runStep_of_ne cfg s x hne,
          coreTick_loud_batch cfg s x.1 x.2 hloud]
        by_cases hd : cfg.max_chunk_duration ≤
            chunk_durationQ (s.accumulated_frames ++ x.2)
        · rw [if_pos hd]
          obtain ⟨ih1, ih2⟩ := ih ⟨none, [], false⟩ hmax hxs
          constructor
          · intro c hc ch hch
            rcases List.mem_cons.mp hc with hc | hc
            · rw [hc] at hch
              obtain rfl : s.accumulated_frames ++ x.2 = ch :=
                Option.some_injective _ hch
              exact hd
            · exact ih1 c hc ch hch
          · intro _
            rcases eq_or_ne xs [] with rfl | hxs2
            · simpa [runTrace_nil, chunk_durationQ] using hmax
            · exact ih2 hxs2
        · rw [if_neg hd]
          obtain ⟨ih1, ih2⟩ := ih ⟨none, s.accumulated_frames ++ x.2, true⟩
            hmax hxs
          constructor
          · intro c hc ch hch
            rcases List.mem_cons.mp hc with hc | hc
            · rw [hc] at hch
              exact absurd hch (by simp)
            · exact ih1 c hc ch hch
          · intro _
            rcases eq_or_ne xs [] with rfl | hxs2
            · simpa [runTrace_nil] using (lt_of_not_le hd)
            · exact ih2 hxs2

/-- C3 witness: the amended theorem applied at the source's configuration
to a concrete force-cut: 430 loud frames pending, a loud two-frame batch
takes the duration over 10 s, and the tick emits the whole pending
chunk. -/
theorem forcecut_emits_witness :
    (coreTick defaultConfig ⟨none, List.replicate 430 [300], false⟩ 1
        [[300], [300]]).2 =
      some (List.replicate 430 [300] ++ [[300], [300]]) :=
  forcecut_emits.1 defaultConfig ⟨none, List.replicate 430 [300], false⟩ 1
    [[300], [300]] (by norm_num [defaultConfig])
    (by
      simp only [chunk_durationQ, List.length_append, List.length_replicate,
        List.length_cons, List.length_nil]
      norm_num [defaultConfig])

/-! ## C7: emission atomically resets the pending chunk and the silence
marker -/

/-- Where a live silence marker comes from: in any run started with no
silence run in progress, a state whose silence_start holds v got v as the
timestamp of some processed tick whose batch was silent, and every later
processed tick of the run also had a silent batch (a loud batch or an
emission would have cleared the marker). -/
lemma silence_start_origin (cfg : Config) :
    ∀ (l : List (ℚ × List Frame)) (s₀ : PAState),
      s₀.silence_start = none →
      ∀ v, (runTrace cfg s₀ l).1.silence_start = some v →
        ∃ pre y suf, l = pre ++ y :: suf ∧ y.2 ≠ [] ∧
          detect_silence 200 y.2.flatten = true ∧ v = y.1 ∧
          ∀ z ∈ suf, z.2 ≠ [] → detect_silence 200 z.2.flatten = true := by
  intro l
  induction l using List.reverseRecOn with
  | nil =>
      intro s₀ h0 v hv
      rw [runTrace_nil] at hv
      rw [h0] at hv
      exact absurd hv (by simp)
  | append_singleton l x ih =>
      intro s₀ h0 v hv
      rw [runTrace_append] at hv
      set smid := (runTrace cfg s₀ l).1 with hsmid
      rw [runTrace_cons, runTrace_nil] at hv
      simp only at hv
      by_cases hx : x.2 = []
      · have hstep : runStep cfg smid x = (smid, none) := by
          simp [runStep, hx]
        rw [hstep] at hv
        obtain ⟨pre, y, suf, hsplit, hy1, hy2, hy3, hy4⟩ := ih s₀ h0 v hv
        refine ⟨pre, y, suf ++ [x], by rw [hsplit]; simp, hy1, hy2, hy3, ?_⟩
        intro z hz
        rcases List.mem_append.mp hz with hz | hz
        · exact hy4 z hz
        · simp only [List.mem_singleton] at hz
          subst hz
          intro hz2
          exact absurd hx hz2
      · rw [runStep_of_ne cfg smid x hx] at hv
        rcases coreTick_cases cfg smid x.1 x.2 with hc | hc <;> rw [hc] at hv
        · exact absurd hv (by simp)
        · simp only at hv
          cases hdet : detect_silence 200 x.2.flatten with
          | false =>
              rw [update_silence_loud _ _ _ hdet] at hv
              exact absurd hv (by simp)
          | true =>
              cases hss : smid.silence_start with
              | none =>
                  rw [update_silence_silent_none _ _ _ hdet hss] at hv
                  simp only [Option.some.injEq] at hv
                  exact ⟨l, x, [], by simp, hx, hdet, hv.symm, by simp⟩
              | some w =>
                  rw [update_silence_silent_some _ _ _ w hdet hss] at hv
                  simp only [Option.some.injEq] at hv
                  obtain ⟨pre, y, suf, hsplit, hy1, hy2, hy3, hy4⟩ :=
                    ih s₀ h0 w hss
                  refine ⟨pre, y, suf ++ [x], by rw [hsplit]; simp,
                    hy1, hy2, by rw [← hv]; exact hy3, ?_⟩
                  intro z hz
                  rcases List.mem_append.mp hz with hz | hz
                  · exact hy4 z hz
                  · simp only [List.mem_singleton] at hz
                    subst hz
                    intro _
                    exact hdet

/-- C7 (confirmed): (1) whenever a tick emits a chunk, the successor state
has an empty pending chunk and a cleared silence marker (lines 427-429, one
step); (2) whenever a tick emits nothing, the pending chunk is not reset
but extended by exactly the tick's new frames — so during recording the
pending chunk is reset only at emissions; (3) consequently, starting from
any post-emission state (silence marker cleared), the silence branch can
fire at a later tick only if a fresh window of contiguous silent batches of
length ≥ min_silence_duration = 1.0 s has started after the emission. -/
theorem emission_resets_pending_and_marker :
    (∀ (s : PAState) (x : ℚ × List Frame) (c : List Frame),
        (runStep defaultConfig s x).2 = some c →
          (runStep defaultConfig s x).1 = ⟨none, [], false⟩) ∧
    (∀ (s : PAState) (x : ℚ × List Frame),
        (runStep defaultConfig s x).2 = none →
          (runStep defaultConfig s x).1.accumulated_frames =
            s.accumulated_frames ++ x.2) ∧
    (∀ (s₀ : PAState) (l : List (ℚ × List Frame)) (t : ℚ) (fs : List Frame),
        s₀.silence_start = none →
        silence_fired defaultConfig (runTrace defaultConfig s₀ l).1 t fs
            = true →
          ∃ pre y suf, l = pre ++ y :: suf ∧ y.2 ≠ [] ∧
            detect_silence 200 y.2.flatten = true ∧
            (∀ z ∈ suf, z.2 ≠ [] → detect_silence 200 z.2.flatten = true) ∧
            1 ≤ t - y.1 ∧ detect_silence 200 fs.flatten = true) := by
  refine ⟨?_, ?_, ?_⟩
  · intro s x c h
    by_cases hx : x.2 = []
    · simp [runStep, hx] at h
    · rw [runStep_of_ne _ _ _ hx] at h ⊢
      rcases coreTick_cases defaultConfig s x.1 x.2 with hc | hc
      · rw [hc]
      · rw [hc] at h
        exact absurd h (by simp)
  · intro s x h
    by_cases hx : x.2 = []
    · simp [runStep, hx]
    · rw [runStep_of_ne _ _ _ hx] at h ⊢
      rcases coreTick_cases defaultConfig s x.1 x.2 with hc | hc
      · rw [hc] at h
        exact absurd h (by simp)
      · rw [hc]
        simp [update_silence_acc]
  · intro s₀ l t fs h0 hfire
    set smid := (runTrace defaultConfig s₀ l).1 with hsmid
    simp only [silence_fired] at hfire
    by_cases hfs : fs.isEmpty
    · rw [if_pos hfs] at hfire
      exact absurd hfire (by simp)
    · rw [if_neg hfs] at hfire
      cases hdet : detect_silence 200 fs.flatten with
      | false =>
          rw [update_silence_loud _ _ _ hdet] at hfire
          simp [silence_should] at hfire
      | true =>
          cases hss : smid.silence_start with
          | none =>
              rw [update_silence_silent_none _ _ _ hdet hss] at hfire
              simp only [silence_should, decide_eq_true_eq] at hfire
              obtain ⟨-, habs, -⟩ := hfire
              norm_num [defaultConfig] at habs
          | some w =>
              rw [update_silence_silent_some _ _ _ w hdet hss] at hfire
              simp only [silence_should, decide_eq_true_eq] at hfire
              obtain ⟨-, hge, -⟩ := hfire
              obtain ⟨pre, y, suf, hsplit, hy1, hy2, hy3, hy4⟩ :=
                silence_start_origin defaultConfig l s₀ h0 w hss
              subst hy3
              exact ⟨pre, y, suf, hsplit, hy1, hy2, hy4,
                by simpa [defaultConfig] using hge, rfl⟩

/-- With 44 loud frames pending and no silence run, a silent one-frame
batch at time 1 starts a silence run without emitting. -/
lemma coreTick_silent_start45 :
    coreTick defaultConfig ⟨none, List.replicate 44 [300], false⟩ 1 [[0]] =
      (⟨some 1, List.replicate 44 [300] ++ [[0]], false⟩, none) := by
  have hsp : should_process defaultConfig
      (update_silence ⟨none, List.replicate 44 [300], false⟩ 1
        [[0]]).silence_start 1
      (chunk_durationQ ((⟨none, List.replicate 44 [300], false⟩ :
        PAState).accumulated_frames ++ [[0]])) = false := by
    rw [update_silence_silent_none _ _ _ detect_silent_one rfl]
    simp only [should_process, chunk_durationQ, List.length_append,
      List.length_replicate, List.length_cons, List.length_nil,
      decide_eq_false_iff_not]
    rw [if_neg (by norm_num [defaultConfig])]
    norm_num [defaultConfig]
  rw [coreTick_eq_skip _ _ _ _ hsp,
    update_silence_silent_none _ _ _ detect_silent_one rfl]

/-- C7 witness: part (3) of the theorem applied to a concrete run: from a
post-emission state (marker cleared, ≈ 1.02 s pending), silence begins with
the tick at time 1 and the silence branch fires at time 5/2; the exhibited
fresh silent window starts at that tick, 3/2 ≥ 1 s before the firing. -/
theorem emission_resets_witness :
    ∃ pre y suf,
      [((1 : ℚ), [[(0 : ℤ)]])] = pre ++ y :: suf ∧ y.2 ≠ [] ∧
        detect_silence 200 y.2.flatten = true ∧
        (∀ z ∈ suf, z.2 ≠ [] → detect_silence 200 z.2.flatten = true) ∧
        1 ≤ (5 : ℚ)/2 - y.1 ∧
        detect_silence 200 ([[(0 : ℤ)]] : List Frame).flatten = true := by
  have hrun : (runTrace defaultConfig ⟨none, List.replicate 44 [300], false⟩
      [((1 : ℚ), [[(0 : ℤ)]])]).1 =
      ⟨some 1, List.replicate 44 [300] ++ [[0]], false⟩ := by
    rw [runTrace_cons, runTrace_nil, runStep_of_ne _ _ _ (by simp),
      coreTick_silent_start45]
  have hfired : silence_fired defaultConfig
      (runTrace defaultConfig ⟨none, List.replicate 44 [300], false⟩
        [((1 : ℚ), [[(0 : ℤ)]])]).1 ((5 : ℚ)/2) [[0]] = true := by
    rw [hrun]
    simp only [silence_fired]
    rw [if_neg (by simp),
      update_silence_silent_some _ _ _ 1 detect_silent_one rfl]
    simp only [silence_should, decide_eq_true_eq]
    refine ⟨by norm_num, by norm_num [defaultConfig], ?_⟩
    simp only [chunk_durationQ, List.length_append, List.length_replicate,
      List.length_cons, List.length_nil]
    norm_num [defaultConfig]
  exact emission_resets_pending_and_marker.2.2
    ⟨none, List.replicate 44 [300], false⟩ [((1 : ℚ), [[(0 : ℤ)]])]
    ((5 : ℚ)/2) [[0]] rfl hfired

/-! ## C2: silence-triggered emission at the threshold tick -/

/-- Along a run of non-empty silent batches whose timestamps stay within
1 s of a live silence marker t₀, with the cumulative duration staying below
10 s, nothing is emitted: the marker and the listening flag are unchanged
and the batches accumulate. -/
lemma silent_run_no_emit (t₀ : ℚ) :
    ∀ (mid : List (ℚ × List Frame)) (s : PAState),
      s.silence_start = some t₀ →
      (∀ x ∈ mid, x.2 ≠ [] ∧ detect_silence 200 x.2.flatten = true ∧
        x.1 - t₀ < 1) →
      chunk_durationQ (s.accumulated_frames ++ (mid.map Prod.snd).flatten)
          < 10 →
      runTrace defaultConfig s mid =
        (⟨some t₀, s.accumulated_frames ++ (mid.map Prod.snd).flatten,
          s.is_listening⟩, List.replicate mid.length none) := by
  intro mid
  induction mid with
  | nil =>
      intro s h1 _ _
      rw [runTrace_nil]
      obtain ⟨ss, acc, lis⟩ := s
      simp only at h1
      subst h1
      simp
  | cons x xs ih =>
      intro s h1 hmid hdur
      obtain ⟨hx1, hx2, hx3⟩ := hmid x (by simp)
      have hxs : ∀ y ∈ xs, y.2 ≠ [] ∧ detect_silence 200 y.2.flatten
          = true ∧ y.1 - t₀ < 1 :=
        fun y hy => hmid y (List.mem_cons_of_mem x hy)
      rw [runTrace_cons, runStep_of_ne _ _ _ hx1]
      have hup := update_silence_silent_some s x.1 x.2 t₀ hx2 h1
      have hdur2 : chunk_durationQ ((s.accumulated_frames ++ x.2) ++
          (xs.map Prod.snd).flatten) < 10 := by
        simp only [List.map_cons, List.flatten_cons,
          ← List.append_assoc] at hdur
        exact hdur
      have hsp : should_process defaultConfig
          (update_silence s x.1 x.2).silence_start x.1
          (chunk_durationQ (s.accumulated_frames ++ x.2)) = false := by
        rw [hup]
        simp only [should_process]
        rw [if_neg (by
          rintro ⟨-, hge⟩
          norm_num [defaultConfig] at hge
          linarith)]
        simp only [decide_eq_false_iff_not, not_le]
        calc chunk_durationQ (s.accumulated_frames ++ x.2)
            ≤ chunk_durationQ ((s.accumulated_frames ++ x.2) ++
                (xs.map Prod.snd).flatten) := by
              apply chunk_durationQ_mono
              simp
          _ < 10 := hdur2
      rw [coreTick_eq_skip _ _ _ _ hsp, hup]
      rw [ih ⟨some t₀, s.accumulated_frames ++ x.2, s.is_listening⟩ rfl
        hxs hdur2]
      simp [List.append_assoc, List.replicate_succ]

/-- C2 (amended): consider any state with no silence run in progress and a
pending chunk of duration ≥ min_chunk_duration = 1.0 s, followed by a run
of non-empty silent batches: one at time t₀ > 0 (the tick at which the
silence run starts), then batches strictly within 1 s of t₀, then one at
time tk with tk - t₀ ≥ 1 — the first tick at which the silence duration
reaches min_silence_duration.  Provided the cumulative duration stays below
max_chunk_duration = 10 s (no force-cut intervenes; see the counterexample
for why this proviso is necessary), no chunk is emitted at any tick before
tk, and at tk exactly one chunk is emitted carrying the entire pending
audio. -/
theorem silence_emits_at_threshold :
    ∀ (s₀ : PAState) (t₀ tk : ℚ) (f₀ fk : List Frame)
      (mid : List (ℚ × List Frame)),
      s₀.silence_start = none →
      0 < t₀ →
      1 ≤ chunk_durationQ s₀.accumulated_frames →
      f₀ ≠ [] →
      detect_silence 200 f₀.flatten = true →
      fk ≠ [] →
      detect_silence 200 fk.flatten = true →
      (∀ x ∈ mid, x.2 ≠ [] ∧ detect_silence 200 x.2.flatten = true ∧
        x.1 - t₀ < 1) →
      1 ≤ tk - t₀ →
      chunk_durationQ (((s₀.accumulated_frames ++ f₀) ++
        (mid.map Prod.snd).flatten) ++ fk) < 10 →
      runTrace defaultConfig s₀ ((t₀, f₀) :: (mid ++ [(tk, fk)])) =
        (⟨none, [], false⟩,
          List.replicate (mid.length + 1) none ++
            [some (((s₀.accumulated_frames ++ f₀) ++
              (mid.map Prod.snd).flatten) ++ fk)]) := by
  intro s₀ t₀ tk f₀ fk mid h0 ht₀ hmin hf₀ hdf₀ hfk hdfk hmid htk hdur
  have hmono0 : chunk_durationQ (s₀.accumulated_frames ++ f₀) < 10 := by
    refine lt_of_le_of_lt (chunk_durationQ_mono _ _ ?_) hdur
    simp [List.length_append]
  -- tick at t₀: the silence run starts, no emission
  rw [runTrace_cons, runStep_of_ne _ _ _ hf₀]
  have hup0 := update_silence_silent_none s₀ t₀ f₀ hdf₀ h0
  have hsp0 : should_process defaultConfig
      (update_silence s₀ t₀ f₀).silence_start t₀
      (chunk_durationQ (s₀.accumulated_frames ++ f₀)) = false := by
    rw [hup0]
    simp only [should_process]
    rw [if_neg (by
      rintro ⟨-, hge⟩
      norm_num [defaultConfig] at hge)]
    simp only [decide_eq_false_iff_not, not_le]
    simpa [defaultConfig] using hmono0
  rw [coreTick_eq_skip _ _ _ _ hsp0, hup0]
  -- the mid ticks: silent, no emission
  rw [runTrace_append]
  have hmidrun := silent_run_no_emit t₀ mid
    ⟨some t₀, s₀.accumulated_frames ++ f₀, false⟩ rfl hmid
    (by
      refine lt_of_le_of_lt (chunk_durationQ_mono _ _ ?_) hdur
      simp [List.length_append])
  rw [hmidrun]
  -- the tick at tk: the silence branch fires
  rw [runTrace_cons, runTrace_nil, runStep_of_ne _ _ _ hfk]
  have hupk := update_silence_silent_some
    ⟨some t₀, (s₀.accumulated_frames ++ f₀) ++ (mid.map Prod.snd).flatten,
      false⟩ tk fk t₀ hdfk rfl
  have hspk : should_process defaultConfig
      (update_silence ⟨some t₀,
        (s₀.accumulated_frames ++ f₀) ++ (mid.map Prod.snd).flatten,
        false⟩ tk fk).silence_start tk
      (chunk_durationQ ((((⟨some t₀, (s₀.accumulated_frames ++ f₀) ++
          (mid.map Prod.snd).flatten, false⟩ : PAState)).accumulated_frames)
        ++ fk)) = true := by
    rw [hupk]
    simp only [should_process]
    rw [if_pos (by
      constructor
      · intro hz
        rw [hz] at ht₀
        exact absurd ht₀ (by norm_num)
      · simpa [defaultConfig] using htk)]
    simp only [decide_eq_true_eq]
    have : 1 ≤ chunk_durationQ ((((s₀.accumulated_frames ++ f₀) ++
        (mid.map Prod.snd).flatten)) ++ fk) := by
      refine le_trans hmin (chunk_durationQ_mono _ _ ?_)
      simp [List.length_append]
    simpa [defaultConfig] using this
  rw [coreTick_eq_emit _ _ _ _ hspk]
  simp [List.replicate_succ]

/-- C2 witness: the amended theorem applied to a concrete run: ≈ 1.02 s
pending, silence starting at time 1, next silent batch at time 21/10 (the
first tick with silence duration ≥ 1): no emission at the first silent
tick, and the whole pending audio emitted at the second. -/
theorem silence_emits_at_threshold_witness :
    runTrace defaultConfig ⟨none, List.replicate 44 [300], false⟩
      [((1 : ℚ), [[(0 : ℤ)]]), ((21 : ℚ)/10, [[0]])] =
      (⟨none, [], false⟩,
        [none, some (List.replicate 44 [300] ++ ([[0]] ++ [[0]]))]) := by
  have h := silence_emits_at_threshold
    ⟨none, List.replicate 44 [300], false⟩ 1 ((21 : ℚ)/10) [[0]] [[0]] []
    rfl (by norm_num)
    (by
      simp only [chunk_durationQ, List.length_replicate]
      norm_num)
    (by simp) detect_silent_one (by simp) detect_silent_one
    (by simp) (by norm_num)
    (by
      simp only [chunk_durationQ, List.length_append, List.length_replicate,
        List.map_nil, List.flatten_nil, List.length_cons, List.length_nil]
      norm_num)
  simpa using h

lemma replicate_ne_nil (n : ℕ) (hn : n ≠ 0) (a : Frame) :
    List.replicate n a ≠ [] := by
  intro h
  have h2 := congrArg List.length h
  simp only [List.length_replicate, List.length_nil] at h2
  exact hn h2

lemma runTrace_step (cfg : Config) (s : PAState) (x : ℚ × List Frame)
    (xs : List (ℚ × List Frame)) (s2 : PAState) (e : Option (List Frame))
    (hstep : runStep cfg s x = (s2, e)) :
    runTrace cfg s (x :: xs) =
      ((runTrace cfg s2 xs).1, e :: (runTrace cfg s2 xs).2) := by
  rw [runTrace_cons, hstep]

/-- C2 counterexample: a frame stream satisfying the claim's premise on
which the claim fails, because a force-cut intervenes during the silence
window and restarts the silence run.  410 loud frames (≈ 9.52 s ≥ 1.0 s
pending) arrive at time 1; the stream then stays continuously silent: 20
silent frames at time 2, two at time 5/2, two at time 3.  The tick at time
3 is the first at which the stream's silence duration reaches
min_silence_duration (3 - 2 = 1), yet no chunk is emitted there: the
pending duration crossed 10 s at time 5/2, so the force-cut emitted then
and cleared silence_start, and the restarted silence run is only 1/2 s old
at time 3. -/
theorem silence_threshold_forcecut_cex :
    (runTrace defaultConfig ⟨none, [], false⟩
        [((1 : ℚ), List.replicate 410 [300]),
          ((2 : ℚ), List.replicate 20 [0]),
          ((5 : ℚ)/2, [[0], [0]]),
          ((3 : ℚ), [[0], [0]])]).2 =
      [none, none,
        some ((List.replicate 410 [300] ++ List.replicate 20 [0]) ++
          [[0], [0]]),
        none] ∧
      1 ≤ chunk_durationQ (List.replicate 410 [300]) ∧
      detect_silence 200 ((List.replicate 20 ([0] : Frame)).flatten)
          = true ∧
      detect_silence 200 ([[(0 : ℤ)], [0]].flatten) = true := by
  have hdet20 : detect_silence 200
      ((List.replicate 20 ([0] : Frame)).flatten) = true := by
    rw [flatten_replicate_singleton]
    exact detect_silence_silent 20 (by norm_num)
  have hdet2 : detect_silence 200 ([[(0 : ℤ)], [0]].flatten) = true := by
    simpa using detect_silence_silent 2 (by norm_num)
  have hs1 : runStep defaultConfig ⟨none, [], false⟩
      ((1 : ℚ), List.replicate 410 [300]) =
      (⟨none, List.replicate 410 [300], true⟩, none) := by
    rw [runStep_of_ne _ _ _ (replicate_ne_nil 410 (by norm_num) _)]
    rw [coreTick_loud_batch _ _ _ _ (by
      rw [flatten_replicate_singleton]
      exact detect_silence_loud 410 (by norm_num))]
    rw [if_neg (by
      simp only [chunk_durationQ, List.length_append, List.length_nil,
        List.length_replicate]
      norm_num [defaultConfig])]
    rw [List.nil_append]
  have hs2 : runStep defaultConfig ⟨none, List.replicate 410 [300], true⟩
      ((2 : ℚ), List.replicate 20 [0]) =
      (⟨some 2, List.replicate 410 [300] ++ List.replicate 20 [0], false⟩,
        none) := by
    rw [runStep_of_ne _ _ _ (replicate_ne_nil 20 (by norm_num) _)]
    have hsp : should_process defaultConfig
        (update_silence ⟨none, List.replicate 410 [300], true⟩ 2
          (List.replicate 20 [0])).silence_start 2
        (chunk_durationQ ((⟨none, List.replicate 410 [300], true⟩ :
          PAState).accumulated_frames ++ List.replicate 20 [0])) = false := by
      rw [update_silence_silent_none _ _ _ hdet20 rfl]
      simp only [should_process]
      rw [if_neg (by norm_num [defaultConfig])]
      simp only [chunk_durationQ, List.length_append, List.length_replicate,
        decide_eq_false_iff_not]
      norm_num [defaultConfig]
    rw [coreTick_eq_skip _ _ _ _ hsp,
      update_silence_silent_none _ _ _ hdet20 rfl]
  have hs3 : runStep defaultConfig
      ⟨some 2, List.replicate 410 [300] ++ List.replicate 20 [0], false⟩
      ((5 : ℚ)/2, [[0], [0]]) =
      (⟨none, [], false⟩,
        some ((List.replicate 410 [300] ++ List.replicate 20 [0]) ++
          [[0], [0]])) := by
    rw [runStep_of_ne _ _ _ (by simp)]
    apply coreTick_eq_emit
    rw [update_silence_silent_some _ _ _ 2 hdet2 rfl]
    simp only [should_process]
    rw [if_neg (by norm_num [defaultConfig])]
    simp only [chunk_durationQ, List.length_append, List.length_replicate,
      List.length_cons, List.length_nil, decide_eq_true_eq]
    norm_num [defaultConfig]
  have hs4 : runStep defaultConfig ⟨none, [], false⟩
      ((3 : ℚ), [[0], [0]]) = (⟨some 3, [[0], [0]], false⟩, none) := by
    rw [runStep_of_ne _ _ _ (by simp)]
    have hsp : should_process defaultConfig
        (update_silence ⟨none, [], false⟩ 3 [[0], [0]]).silence_start 3
        (chunk_durationQ ((⟨none, [], false⟩ :
          PAState).accumulated_frames ++ [[0], [0]])) = false := by
      rw [update_silence_silent_none _ _ _ hdet2 rfl]
      simp only [should_process]
      rw [if_neg (by norm_num [defaultConfig])]
      simp only [chunk_durationQ, List.length_append, List.length_cons,
        List.length_nil, decide_eq_false_iff_not]
      norm_num [defaultConfig]
    rw [coreTick_eq_skip _ _ _ _ hsp,
      update_silence_silent_none _ _ _ hdet2 rfl]
    simp
  refine ⟨?_, ?_, hdet20, hdet2⟩
  · rw [runTrace_step _ _ _ _ _ _ hs1, runTrace_step _ _ _ _ _ _ hs2,
      runTrace_step _ _ _ _ _ _ hs3, runTrace_step _ _ _ _ _ _ hs4,
      runTrace_nil]
  · simp only [chunk_durationQ, List.length_replicate]
    norm_num

/-! ## C10 and C1: frame conservation and the stop path -/

/-- Conservation along a buffered run, from any state whose cursor has
caught up with the buffer: the cursor ends caught up with the buffer, the
buffer grows by exactly the appended frames, and the concatenation of the
emitted chunks followed by the final pending chunk is the initial pending
chunk followed by the newly captured frames — every captured frame is
consumed exactly once. -/
lemma buffered_run_conservation (cfg : Config) :
    ∀ (l : List (ℚ × List Frame)) (s : BufState),
      s.last_process_size = s.frames.length →
        (buffered_run cfg s l).1.last_process_size =
            (buffered_run cfg s l).1.frames.length ∧
        (buffered_run cfg s l).1.frames =
            s.frames ++ (l.map Prod.snd).flatten ∧
        ((buffered_run cfg s l).2.filterMap id).flatten ++
            (buffered_run cfg s l).1.core.accumulated_frames =
          s.core.accumulated_frames ++ (l.map Prod.snd).flatten := by
  intro l
  induction l with
  | nil =>
      intro s h
      simp [buffered_run_nil, h]
  | cons x xs ih =>
      intro s h
      rcases x with ⟨t, a⟩
      rw [buffered_run_cons]
      by_cases ha : a = []
      · subst ha
        rw [buffered_tick_nil cfg s t h]
        obtain ⟨h1, h2, h3⟩ := ih s h
        exact ⟨h1, by simpa using h2, by simpa using h3⟩
      · rw [buffered_tick_cons cfg s t a h ha]
        rcases coreTick_cases cfg s.core t a with hc | hc <;> rw [hc]
        · obtain ⟨h1, h2, h3⟩ := ih
            ⟨s.frames ++ a, (s.frames ++ a).length, ⟨none, [], false⟩⟩ rfl
          refine ⟨h1, ?_, ?_⟩
          · rw [h2]
            simp
          · simp only [List.filterMap_cons, id_eq, List.flatten_cons]
            rw [List.append_assoc, h3]
            simp
        · obtain ⟨h1, h2, h3⟩ := ih
            ⟨s.frames ++ a, (s.frames ++ a).length, update_silence s.core t a⟩
            rfl
          refine ⟨h1, ?_, ?_⟩
          · rw [h2]
            simp
          · simp only [List.filterMap_cons, id_eq]
            rw [h3, update_silence_acc]
            simp

/-- C10 (confirmed): over any run of the tick loop from recording start
(modelling audio_callback's appends as arriving between ticks), the
last_process_size cursor always catches up with the frame buffer — no
captured frame is ever read twice — the buffer is exactly the stream of
appended frames, and the concatenation of the emitted chunks followed by
the current pending chunk is exactly the captured frame stream: the chunks
are pairwise disjoint contiguous spans and no frame is duplicated or
dropped between chunks. -/
theorem frames_consumed_once :
    ∀ (cfg : Config) (l : List (ℚ × List Frame)),
      (buffered_run cfg bufInit l).1.last_process_size =
          (buffered_run cfg bufInit l).1.frames.length ∧
      (buffered_run cfg bufInit l).1.frames = (l.map Prod.snd).flatten ∧
      ((buffered_run cfg bufInit l).2.filterMap id).flatten ++
          (buffered_run cfg bufInit l).1.core.accumulated_frames =
        (buffered_run cfg bufInit l).1.frames := by
  intro cfg l
  obtain ⟨h1, h2, h3⟩ := buffered_run_conservation cfg l bufInit rfl
  have h2i : (buffered_run cfg bufInit l).1.frames =
      (l.map Prod.snd).flatten := by
    simpa [bufInit] using h2
  refine ⟨h1, h2i, ?_⟩
  rw [h2i, h3]
  simp [bufInit, paInit]

/-- C1 counterexample: a session in which recording stops while the
pending chunk is non-empty and no final chunk is emitted.  One loud frame
arrives at time 1 (no emission rule fires), then recording stops: the
session's emitted chunks are [] — not exactly one final chunk — while the
pending chunk still holds the frame, which is simply discarded
(stop_recording, lines 473-492, never calls process_chunk and process_audio
has no code after its loop). -/
theorem stop_discards_pending_cex :
    session_chunks defaultConfig [(1, [[300]])] = [] ∧
      (buffered_run defaultConfig bufInit
        [(1, [[300]])]).1.core.accumulated_frames = [[300]] := by
  have h1 : buffered_tick defaultConfig bufInit 1 [[300]] =
      (⟨[[300]], 1, ⟨none, [[300]], true⟩⟩, none) := by
    rw [buffered_tick_cons defaultConfig bufInit 1 [[300]] rfl (by simp)]
    rw [show bufInit.core = paInit from rfl, coreTick_skip_eval]
    rfl
  constructor
  · simp [session_chunks, buffered_run_cons, buffered_run_nil, h1,
      stop_recording_flush]
  · simp [buffered_run_cons, buffered_run_nil, h1]

/-- C1 (amended): stopping a recording session never emits a final chunk,
whether or not the pending chunk is empty: the chunks of a whole session
are exactly the chunks emitted tick by tick while recording, and the
pending frames held at stop time are exactly the captured frames that
belong to no emitted chunk — they are discarded by the stop path. -/
theorem stop_emits_no_final_chunk :
    ∀ (cfg : Config) (l : List (ℚ × List Frame)),
      session_chunks cfg l = (buffered_run cfg bufInit l).2.filterMap id ∧
      (session_chunks cfg l).flatten ++
          (buffered_run cfg bufInit l).1.core.accumulated_frames =
        (buffered_run cfg bufInit l).1.frames := by
  intro cfg l
  have hs : session_chunks cfg l =
      (buffered_run cfg bufInit l).2.filterMap id := by
    simp [session_chunks, stop_recording_flush]
  obtain ⟨h1, h2, h3⟩ := buffered_run_conservation cfg l bufInit rfl
  refine ⟨hs, ?_⟩
  rw [hs, h3]
  simp [bufInit, paInit]
  simpa [bufInit] using h2.symm

end VoiceInput
